import Mathlib

set_option maxHeartbeats 1000000

namespace Esp32

/-!
Shallow embedding of the connectivity, credential-store, capture and
publish logic of `esp-32-image-detection.ino`.

Conventions used throughout:

* Machine state touched by the sketch (the WiFi association, the NVS
  `Preferences` "wifi" namespace, the MQTT client connection, the
  `wifiSsidFromCloud` / `wifiPasswordFromCloud` / `wifiConfigFromCloud`
  globals, and the callback installed with `setCallback`) is threaded
  explicitly through a `SysState` record.
* The radio and network environment (which SSID/password pairs accept a
  connection within the relevant timeout, what each HTTP attempt
  returns, whether the MQTT subscribe and the request publish succeed,
  and whether an IoT response arrives inside the 12 s wait window) is an
  `Env` record of oracles.  A blocking wait that either observes success
  within its timeout or gives up is therefore a single oracle lookup.
* Functions additionally return the list of observable events (`Ev`)
  they perform, in program order, so that ordering claims can be stated.
* The NVS medium is modelled as reliable (`prefs.begin` succeeds); the
  sketch treats a medium fault as a silent no-op and no claim under
  consideration concerns such a fault.
* `parseWifiConfigJson` in the sketch writes the three cloud globals and
  returns a `bool`; here it returns the parsed pair as an
  `Option Credential` and every modelled caller stores the pair into the
  `cloudSsid` / `cloudPass` / `cloudFlag` fields of the state exactly
  where the sketch's parse call would have set the globals.
-/

/-- A WiFi credential: the ssid / password pair used throughout the
sketch (`String ssid`, `String pass`). -/
structure Credential where
  ssid : String
  pass : String
deriving DecidableEq, Repr

/-- The `Preferences` namespace `NVS_WIFI_NAMESPACE` ("wifi"): its two
keys `NVS_KEY_SSID` ("ssid") and `NVS_KEY_PASS` ("pass"), each either
absent or holding a string. -/
structure NVS where
  ssidKey : Option String
  passKey : Option String
deriving DecidableEq, Repr

/-- `saveWifiConfigToNVS` (`.ino` lines 51-58): `putString` on both keys
of the "wifi" namespace, unconditionally overwriting whatever was there. -/
def saveWifiConfigToNVS (nvs : NVS) (ssid pass : String) : NVS :=
  { ssidKey := some ssid, passKey := some pass }

/-- `loadWifiConfigFromNVS` (`.ino` lines 61-69): returns `false` when the
ssid key is absent; otherwise reads both strings (password defaulting to
`""`) and reports success exactly when the stored ssid is non-empty. -/
def loadWifiConfigFromNVS (nvs : NVS) : Option Credential :=
  match nvs.ssidKey with
  | none => none
  | some s =>
      let p := nvs.passKey.getD ""
      if 0 < s.length then some ⟨s, p⟩ else none

/-- The four string fields `parseWifiConfigJson` looks up in the JSON
document; `none` models a field that is absent or not a string (the
`as<const char*>()` null case). -/
structure JsonDoc where
  ssid : Option String
  password : Option String
  wifi_ssid : Option String
  wifi_password : Option String
deriving DecidableEq, Repr

/-- The payload handed to `parseWifiConfigJson`: a null/empty C string, a
body that `deserializeJson` rejects, or a parsed JSON object. -/
inductive Payload where
  | empty
  | malformed
  | obj (d : JsonDoc)
deriving DecidableEq, Repr

/-- `parseWifiConfigJson` (`.ino` lines 235-248): rejects a null/empty
payload and a `deserializeJson` failure; resolves the ssid from `"ssid"`
falling back to `"wifi_ssid"` when the former is null or empty; resolves
the password from `"password"` falling back to `"wifi_password"` only
when the former is null; fails when the resolved ssid is null or empty,
and otherwise yields the pair (password defaulting to `""`). -/
def parseWifiConfigJson (p : Payload) : Option Credential :=
  match p with
  | .empty => none
  | .malformed => none
  | .obj d =>
      let ssidStr : Option String :=
        match d.ssid with
        | some s => if 0 < s.length then some s else d.wifi_ssid
        | none => d.wifi_ssid
      let passStr : Option String :=
        match d.password with
        | some q => some q
        | none => d.wifi_password
      match ssidStr with
      | none => none
      | some s => if 0 < s.length then some ⟨s, passStr.getD ""⟩ else none

/-- Provenance tag for a WiFi connect attempt: which call site of the
sketch issued it (the NVS-cached credential in `ensureWiFiConnected`
step 1, entry `i` of `defaultWifiList`, or the cloud-fetched credential
in `fetchFromAWSAndMaybeSwitch`). -/
inductive Src where
  | cached
  | defaultIdx (i : Nat)
  | cloudCred
deriving DecidableEq, Repr

/-- Observable events of the connectivity code, in program order:
a `WiFi.begin`-and-wait attempt with its outcome, and an invocation of
the cloud config fetch (`fetchWifiConfigFromAWS`). -/
inductive Ev where
  | attempt (src : Src) (ssid : String) (ok : Bool)
  | fetchInvoked
deriving DecidableEq, Repr

/-- Outcome of one HTTP attempt inside `fetchWifiConfigFromAWS`:
`http.begin` failing, or a `GET` yielding a status code and a body. -/
inductive HttpAttempt where
  | beginFail
  | response (code : Int) (body : Payload)

/-- The network environment the sketch runs against.  `reachable` says
whether a `WiFi.begin(ssid, pass)` reaches `WL_CONNECTED` within the
caller's bounded wait; `http k` is the outcome of HTTP attempt number
`k` (1-based) of the point-to-point fetch; `subscribeOk`, `publishReqOk`
and `iotResponse` drive the broker-mediated fetch (`iotResponse = none`
means the 12 s wait window expires with no response). -/
structure Env where
  defaultWifiList : List Credential
  reachable : String → String → Bool
  http : Nat → HttpAttempt
  subscribeOk : Bool
  publishReqOk : Bool
  iotResponse : Option Payload

/-- The mutable machine state the sketch touches: the current WiFi
association (`none` = not `WL_CONNECTED`), the NVS "wifi" namespace,
whether the MQTT client is connected, whether a `setCallback` handler is
currently installed, whether the response-topic subscription has been
made, and the three cloud-config globals. -/
structure SysState where
  wifi : Option Credential
  nvs : NVS
  mqttConnected : Bool
  cbInstalled : Bool
  subscribed : Bool
  cloudSsid : String
  cloudPass : String
  cloudFlag : Bool
deriving DecidableEq, Repr

/-- `tryConnectWifiWithTimeout` (`.ino` lines 104-122): returns `true`
right away when already connected; otherwise disconnects, begins on the
given credential and waits up to the timeout, reporting whether
`WL_CONNECTED` was reached.  `src` is the ghost provenance tag of the
call site, recorded in the emitted event. -/
def tryConnectWifiWithTimeout (env : Env) (st : SysState) (ssid pass : String) (src : Src) :
    SysState × Bool × List Ev :=
  match st.wifi with
  | some _ => (st, true, [])
  | none =>
      if env.reachable ssid pass then
        ({ st with wifi := some ⟨ssid, pass⟩ }, true, [Ev.attempt src ssid true])
      else
        ({ st with wifi := none }, false, [Ev.attempt src ssid false])

/-- The `for` loop of `connectWithDefaultWifiList` (`.ino` lines 84-99):
try each remaining entry in order under its own 12 s timeout, stopping at
the first success; `i` is the index of the first remaining entry. -/
def connectWithDefaultWifiListAux (env : Env) (st : SysState) :
    Nat → List Credential → SysState × Bool × List Ev
  | _, [] => (st, false, [])
  | i, c :: rest =>
      if env.reachable c.ssid c.pass then
        ({ st with wifi := some c }, true, [Ev.attempt (Src.defaultIdx i) c.ssid true])
      else
        let r := connectWithDefaultWifiListAux env { st with wifi := none } (i + 1) rest
        (r.1, r.2.1, Ev.attempt (Src.defaultIdx i) c.ssid false :: r.2.2)

/-- `connectWithDefaultWifiList` (`.ino` lines 79-101): early `true` when
already connected, otherwise the in-order scan of `defaultWifiList`. -/
def connectWithDefaultWifiList (env : Env) (st : SysState) : SysState × Bool × List Ev :=
  match st.wifi with
  | some _ => (st, true, [])
  | none => connectWithDefaultWifiListAux env st 0 env.defaultWifiList

/-- `AWS_FETCH_MAX_RETRIES` (`.ino` line 251). -/
def AWS_FETCH_MAX_RETRIES : Nat := 5

/-- `HTTP_CODE_OK`: the one status code `fetchWifiConfigFromAWS` accepts. -/
def HTTP_CODE_OK : Int := 200

/-- The retry loop of `fetchWifiConfigFromAWS` (`.ino` lines 264-303):
`attempt` is the 1-based attempt number, the second argument the number
of attempts still allowed.  An attempt fails on `http.begin` failure, on
any status other than `HTTP_CODE_OK`, or on a parse failure, and the
loop retries until the attempts are exhausted.  On the first successful
attempt the parsed credential is stored into the cloud globals and
`saveWifiConfigToNVS` overwrites the NVS record. -/
def fetchWifiConfigFromAWSAux (env : Env) (st : SysState) :
    Nat → Nat → SysState × Bool
  | _, 0 => (st, false)
  | attempt, remaining + 1 =>
      match env.http attempt with
      | .beginFail =>
          if remaining = 0 then (st, false)
          else fetchWifiConfigFromAWSAux env st (attempt + 1) remaining
      | .response code body =>
          if code ≠ HTTP_CODE_OK then
            if remaining = 0 then (st, false)
            else fetchWifiConfigFromAWSAux env st (attempt + 1) remaining
          else
            match parseWifiConfigJson body with
            | none =>
                if remaining = 0 then (st, false)
                else fetchWifiConfigFromAWSAux env st (attempt + 1) remaining
            | some cred =>
                ({ st with
                    cloudSsid := cred.ssid
                    cloudPass := cred.pass
                    cloudFlag := true
                    nvs := saveWifiConfigToNVS st.nvs cred.ssid cred.pass },
                  true)

/-- `fetchWifiConfigFromAWS` (`.ino` lines 255-307): refuses to run when
WiFi is down, otherwise runs the bounded retry loop.  The emitted
`fetchInvoked` event marks the invocation of the cloud config fetch. -/
def fetchWifiConfigFromAWS (env : Env) (st : SysState) : SysState × Bool × List Ev :=
  match st.wifi with
  | none => (st, false, [Ev.fetchInvoked])
  | some _ =>
      let r := fetchWifiConfigFromAWSAux env st 1 AWS_FETCH_MAX_RETRIES
      (r.1, r.2, [Ev.fetchInvoked])

/-- `fetchWifiConfigFromIoT` (`.ino` lines 324-369): requires a connected
MQTT session; installs the response callback with `setCallback`, then
subscribes to the response topic (returning on failure), publishes the
empty request (returning on failure), services the event loop for up to
12 s, clears the callback with `setCallback(nullptr)` after the wait,
and only then checks for timeout and parses the response, saving a
successfully parsed credential to NVS. -/
def fetchWifiConfigFromIoT (env : Env) (st : SysState) : SysState × Bool :=
  if st.mqttConnected = false then (st, false)
  else
    let st₁ := { st with cbInstalled := true }
    if env.subscribeOk = false then (st₁, false)
    else
      let st₂ := { st₁ with subscribed := true }
      if env.publishReqOk = false then (st₂, false)
      else
        let st₃ := { st₂ with cbInstalled := false }
        match env.iotResponse with
        | none => (st₃, false)
        | some body =>
            match parseWifiConfigJson body with
            | none => (st₃, false)
            | some cred =>
                ({ st₃ with
                    cloudSsid := cred.ssid
                    cloudPass := cred.pass
                    cloudFlag := true
                    nvs := saveWifiConfigToNVS st₃.nvs cred.ssid cred.pass },
                  true)

/-- `fetchFromAWSAndMaybeSwitch`, HTTP variant (`.ino` lines 422-436, the
code compiled when `WIFI_CONFIG_VIA_IOT` is 0, its default): fetch; on
success disconnect and try the cloud credential under the 15 s timeout,
falling back to the default list (after clearing `wifiConfigFromCloud`)
when that times out; on fetch failure stay on the current link. -/
def fetchFromAWSAndMaybeSwitch (env : Env) (st : SysState) : SysState × List Ev :=
  let r := fetchWifiConfigFromAWS env st
  if r.2.1 then
    let st₁ := { r.1 with wifi := none }
    let r₂ := tryConnectWifiWithTimeout env st₁ r.1.cloudSsid r.1.cloudPass Src.cloudCred
    if r₂.2.1 then (r₂.1, r.2.2 ++ r₂.2.2)
    else
      let st₂ := { r₂.1 with cloudFlag := false }
      let r₃ := connectWithDefaultWifiList env st₂
      (r₃.1, r.2.2 ++ r₂.2.2 ++ r₃.2.2)
  else (r.1, r.2.2)

/-- Step 2 onwards of `ensureWiFiConnected` (`.ino` lines 391-395), the
fall-through shared by the no-cache and cached-attempt-failed paths: try
the default list, give up if it is exhausted, otherwise fetch from AWS
and maybe switch.  `pre` is the already-emitted event prefix. -/
def ensureWiFiConnectedStep2 (env : Env) (st : SysState) (pre : List Ev) : SysState × List Ev :=
  let r := connectWithDefaultWifiList env st
  if r.2.1 then
    let r₂ := fetchFromAWSAndMaybeSwitch env r.1
    (r₂.1, pre ++ r.2.2 ++ r₂.2)
  else (r.1, pre ++ r.2.2)

/-- `ensureWiFiConnected` (`.ino` lines 377-396): no-op when connected;
step 1 tries the NVS-cached credential under the 15 s timeout and, on
success, goes straight to the cloud fetch; otherwise falls through to
the default list (step 2) and, if some entry connects, the cloud fetch
(step 3). -/
def ensureWiFiConnected (env : Env) (st : SysState) : SysState × List Ev :=
  match st.wifi with
  | some _ => (st, [])
  | none =>
      match loadWifiConfigFromNVS st.nvs with
      | some c =>
          let r := tryConnectWifiWithTimeout env st c.ssid c.pass Src.cached
          if r.2.1 then
            let r₂ := fetchFromAWSAndMaybeSwitch env r.1
            (r₂.1, r.2.2 ++ r₂.2)
          else ensureWiFiConnectedStep2 env r.1 r.2.2
      | none => ensureWiFiConnectedStep2 env st []

/-- `MQTT_MAX_IMAGE_BYTES` (`.ino` line 147): the size ceiling, 120 KiB. -/
def MQTT_MAX_IMAGE_BYTES : Nat := 120 * 1024

/-- `PUBLISH_CHUNK_SZ` (`.ino` line 148). -/
def PUBLISH_CHUNK_SZ : Nat := 2048

/-- The camera and allocator environment of `captureToPSRAM`:
`frame` is the `esp_camera_fb_get` result (`none` = capture failed,
`some len` = a frame of encoded length `len`), and the three flags say
whether `ps_malloc`, `heap_caps_malloc(MALLOC_CAP_SPIRAM)` and plain
`malloc` would succeed for this frame. -/
structure CamEnv where
  frame : Option Nat
  psMallocOk : Bool
  heapCapsOk : Bool
  mallocOk : Bool

/-- Observable events of `captureToPSRAM`, in program order. -/
inductive CapEv where
  | fbGet (ok : Bool)
  | allocTry (pool : Nat) (ok : Bool)
  | copy (len : Nat)
  | fbReturn
deriving DecidableEq, Repr

/-- `captureToPSRAM` (`.ino` lines 466-493): grab a frame; reject a frame
longer than `MQTT_MAX_IMAGE_BYTES`, returning it to the driver without
any allocation or copy; otherwise allocate a copy buffer from up to
three pools in order, return the frame on total allocation failure, and
on success `memcpy` and return the frame.  The result is the length of
the owned copy. -/
def captureToPSRAM (env : CamEnv) : Option Nat × List CapEv :=
  match env.frame with
  | none => (none, [CapEv.fbGet false])
  | some len =>
      if MQTT_MAX_IMAGE_BYTES < len then
        (none, [CapEv.fbGet true, CapEv.fbReturn])
      else
        if env.psMallocOk then
          (some len, [CapEv.fbGet true, CapEv.allocTry 0 true, CapEv.copy len, CapEv.fbReturn])
        else if env.heapCapsOk then
          (some len, [CapEv.fbGet true, CapEv.allocTry 0 false, CapEv.allocTry 1 true,
            CapEv.copy len, CapEv.fbReturn])
        else if env.mallocOk then
          (some len, [CapEv.fbGet true, CapEv.allocTry 0 false, CapEv.allocTry 1 false,
            CapEv.allocTry 2 true, CapEv.copy len, CapEv.fbReturn])
        else
          (none, [CapEv.fbGet true, CapEv.allocTry 0 false, CapEv.allocTry 1 false,
            CapEv.allocTry 2 false, CapEv.fbReturn])

/-- The broker transport as seen by `publishImageBinary`: whether
`beginPublish` succeeds, whether `endPublish` is acknowledged, and
`writeRet k n` = the byte count `mqttClient.write` reports for the k-th
write call (0-based) when asked to write `n` bytes (capped at `n`, as
the transport can never accept more than it was given). -/
structure PubEnv where
  beginOk : Bool
  endOk : Bool
  writeRet : Nat → Nat → Nat

/-- Observable events of `publishImageBinary`, in program order. -/
inductive PubEv where
  | topicBuilt
  | beginPub (len : Nat)
  | write (req acc : Nat)
  | endPub
deriving DecidableEq, Repr

/-- The `while (sent < len)` loop of `publishImageBinary` (`.ino` lines
503-509): write `min(PUBLISH_CHUNK_SZ, len - sent)` bytes per call,
breaking out as soon as a call accepts 0 bytes.  `k` is the 0-based
write-call index.  The structural `fuel` argument only bounds the
recursion; callers pass `fuel = len`, which the loop can never exhaust
since every non-final iteration advances `sent` by at least one byte. -/
def publishWriteLoop (env : PubEnv) (len : Nat) : Nat → Nat → Nat → Nat × List PubEv
  | _, sent, 0 => (sent, [])
  | k, sent, fuel + 1 =>
      if sent < len then
        let n := min PUBLISH_CHUNK_SZ (len - sent)
        let w := min (env.writeRet k n) n
        if w = 0 then (sent, [PubEv.write n 0])
        else
          let r := publishWriteLoop env len (k + 1) (sent + w) fuel
          (r.1, PubEv.write n w :: r.2)
      else (sent, [])

/-- `publishImageBinary` (`.ino` lines 496-513): bail out before building
the topic or starting a transfer when the buffer pointer is null, the
length is 0, or MQTT is not connected; otherwise build the topic, begin
a length-declared transfer (failure returns), run the chunked write
loop, and — via the short-circuit `(sent == len) && endPublish()` —
call `endPublish` exactly when every byte was written, reporting success
only when it is also acknowledged. -/
def publishImageBinary (env : PubEnv) (connected : Bool) (dataNull : Bool) (len : Nat) :
    Bool × List PubEv :=
  if dataNull = true ∨ len = 0 ∨ connected = false then (false, [])
  else
    let header := [PubEv.topicBuilt, PubEv.beginPub len]
    if env.beginOk = false then (false, header)
    else
      let r := publishWriteLoop env len 0 0 len
      if r.1 = len then (env.endOk, header ++ r.2 ++ [PubEv.endPub])
      else (false, header ++ r.2)

/-- Total bytes the transport accepted, read off a `publishImageBinary`
event trace. -/
def writtenSum : List PubEv → Nat
  | [] => 0
  | PubEv.write _ acc :: rest => acc + writtenSum rest
  | _ :: rest => writtenSum rest

/-! ### Concrete environments and states used by witnesses and
counterexamples -/

/-- Cold-boot state: WiFi down, NVS empty, MQTT down, no callback, no
subscription, cloud globals cleared. -/
def st0 : SysState :=
  { wifi := none, nvs := { ssidKey := none, passKey := none }, mqttConnected := false,
    cbInstalled := false, subscribed := false, cloudSsid := "", cloudPass := "",
    cloudFlag := false }

/-- Inert environment: empty default list, nothing reachable, HTTP begin
always failing, broker operations failing, no IoT response. -/
def env0 : Env :=
  { defaultWifiList := [], reachable := fun _ _ => false,
    http := fun _ => HttpAttempt.beginFail, subscribeOk := false, publishReqOk := false,
    iotResponse := none }

/-- A state with a link already up via the bootstrap network. -/
def stLinkUp : SysState := { st0 with wifi := some ⟨"boot", "bp"⟩ }

/-- Every HTTP attempt answers 200 with a well-formed credential body. -/
def envHttp200 : Env :=
  { env0 with
      http := fun _ => HttpAttempt.response 200
        (Payload.obj ⟨some "newnet", some "npw", none, none⟩) }

/-- Every HTTP attempt answers 204 (a 2xx status that is not 200) with
the same well-formed credential body. -/
def envHttp204 : Env :=
  { env0 with
      http := fun _ => HttpAttempt.response 204
        (Payload.obj ⟨some "newnet", some "npw", none, none⟩) }

/-- Cached network reachable, cloud fetch answering a different (and
unreachable) credential, one (unreachable) default entry. -/
def envW1 : Env :=
  { env0 with
      defaultWifiList := [⟨"dnet", "dpw"⟩],
      reachable := fun s _ => s == "cachednet",
      http := fun _ => HttpAttempt.response 200
        (Payload.obj ⟨some "cloudnet", some "cpw", none, none⟩) }

/-- State whose NVS caches the (reachable) credential of `envW1`. -/
def stW1 : SysState := { st0 with nvs := { ssidKey := some "cachednet", passKey := some "cpw" } }

/-- Default entry reachable, cloud fetch answering an unreachable new
credential: the fallback scenario of the cloud-switch step. -/
def envW4 : Env :=
  { env0 with
      defaultWifiList := [⟨"dnet", "dpw"⟩],
      reachable := fun s _ => s == "dnet",
      http := fun _ => HttpAttempt.response 200
        (Payload.obj ⟨some "newnet", some "newpw", none, none⟩) }

/-- State with the link up via the default entry of `envW4`. -/
def stW4 : SysState := { st0 with wifi := some ⟨"dnet", "dpw"⟩ }

/-- Broker environment where the subscribe succeeds but the request
publish fails. -/
def envC7 : Env := { env0 with subscribeOk := true, publishReqOk := false }

/-- Broker environment where subscribe and request publish succeed but
the response window times out. -/
def envW7 : Env := { env0 with subscribeOk := true, publishReqOk := true, iotResponse := none }

/-- State with a connected MQTT session. -/
def stMqtt : SysState := { st0 with mqttConnected := true }

/-- Transport accepting the whole first chunk, then nothing: produces a
short write on the second chunk. -/
def envC3 : PubEnv :=
  { beginOk := true, endOk := true, writeRet := fun k _ => if k = 0 then 2048 else 0 }

/-- Fully cooperative transport: accepts every byte offered and
acknowledges the finalize. -/
def envPubOk : PubEnv := { beginOk := true, endOk := true, writeRet := fun _ n => n }

/-- A captured frame exactly at the size ceiling, all allocators fine. -/
def camAtCeiling : CamEnv :=
  { frame := some MQTT_MAX_IMAGE_BYTES, psMallocOk := true, heapCapsOk := true, mallocOk := true }

/-- A captured frame one byte over the size ceiling. -/
def camOverCeiling : CamEnv :=
  { frame := some (MQTT_MAX_IMAGE_BYTES + 1), psMallocOk := true, heapCapsOk := true,
    mallocOk := true }

/-- A body using the `ssid` / `password` field pair. -/
def docPair1 : JsonDoc :=
  { ssid := some "net", password := some "pw", wifi_ssid := none, wifi_password := none }

/-- A body using the `wifi_ssid` / `wifi_password` field pair. -/
def docPair2 : JsonDoc :=
  { ssid := none, password := none, wifi_ssid := some "net2", wifi_password := some "pw2" }

/-- A body missing both identifier variants. -/
def docNoIdent : JsonDoc :=
  { ssid := none, password := some "pw", wifi_ssid := none, wifi_password := some "pw" }

/-! ### Helper lemmas -/

/-- A successful parse always yields a non-empty ssid. -/
lemma parseWifiConfigJson_ssid_pos {p : Payload} {c : Credential}
    (h : parseWifiConfigJson p = some c) : 0 < c.ssid.length := by
  cases p with
  | empty => simp [parseWifiConfigJson] at h
  | malformed => simp [parseWifiConfigJson] at h
  | obj d =>
      simp only [parseWifiConfigJson] at h
      split at h
      · exact absurd h (by simp)
      · split at h
        · rename_i s hs hlen
          cases h
          exact hlen
        · exact absurd h (by simp)

/-- Structure eta for the WiFi field: overwriting `wifi` with the value
it already has is the identity. -/
lemma SysState_wifi_none_eta (st : SysState) (h : st.wifi = none) :
    { st with wifi := none } = st := by
  cases st
  cases h
  rfl

/-- Splitting a concatenation at an element that the first part does not
contain: the split point lies in the second part. -/
lemma append_eq_append_cons {α : Type} {a b l₁ l₂ : List α} {e : α} (he : e ∉ a)
    (h : a ++ b = l₁ ++ e :: l₂) : ∃ t, l₁ = a ++ t ∧ b = t ++ e :: l₂ := by
  induction a generalizing l₁ with
  | nil => exact ⟨l₁, rfl, h⟩
  | cons x a ih =>
      cases l₁ with
      | nil =>
          simp only [List.nil_append, List.cons_append, List.cons.injEq] at h
          exact absurd (h.1 ▸ List.mem_cons_self x a) he
      | cons y l₁ =>
          simp only [List.cons_append, List.cons.injEq] at h
          obtain ⟨t, ht₁, ht₂⟩ := ih (fun hm => he (List.mem_cons_of_mem x hm)) h.2
          exact ⟨t, by rw [ht₁, h.1]; rfl, ht₂⟩

/-- A failed run of the HTTP retry loop leaves the state untouched. -/
lemma fetchWifiConfigFromAWSAux_false (env : Env) :
    ∀ (r a : Nat) (st : SysState), (fetchWifiConfigFromAWSAux env st a r).2 = false →
      (fetchWifiConfigFromAWSAux env st a r).1 = st := by
  intro r
  induction r with
  | zero => intro a st _; rfl
  | succ r ih =>
      intro a st h
      simp only [fetchWifiConfigFromAWSAux] at h ⊢
      cases henv : env.http a with
      | beginFail =>
          simp only [henv] at h ⊢
          by_cases hr : r = 0
          · rw [if_pos hr]
          · rw [if_neg hr] at h ⊢
            exact ih (a + 1) st h
      | response code body =>
          simp only [henv] at h ⊢
          by_cases hc : code ≠ HTTP_CODE_OK
          · rw [if_pos hc] at h ⊢
            by_cases hr : r = 0
            · rw [if_pos hr]
            · rw [if_neg hr] at h ⊢
              exact ih (a + 1) st h
          · rw [if_neg hc] at h ⊢
            cases hp : parseWifiConfigJson body with
            | none =>
                simp only [hp] at h ⊢
                by_cases hr : r = 0
                · rw [if_pos hr]
                · rw [if_neg hr] at h ⊢
                  exact ih (a + 1) st h
            | some cred => simp [hp] at h

/-- A successful run of the HTTP retry loop pinpoints an attempt in range
that returned status 200 with a parseable body, and the final state
records the parsed credential in the cloud globals and the (overwritten)
NVS record. -/
lemma fetchWifiConfigFromAWSAux_true (env : Env) :
    ∀ (r a : Nat) (st : SysState), (fetchWifiConfigFromAWSAux env st a r).2 = true →
      ∃ k body cred, a ≤ k ∧ k < a + r ∧
        env.http k = HttpAttempt.response HTTP_CODE_OK body ∧
        parseWifiConfigJson body = some cred ∧
        (fetchWifiConfigFromAWSAux env st a r).1 =
          { st with
              cloudSsid := cred.ssid
              cloudPass := cred.pass
              cloudFlag := true
              nvs := saveWifiConfigToNVS st.nvs cred.ssid cred.pass } := by
  intro r
  induction r with
  | zero => intro a st h; simp [fetchWifiConfigFromAWSAux] at h
  | succ r ih =>
      intro a st h
      simp only [fetchWifiConfigFromAWSAux] at h ⊢
      cases henv : env.http a with
      | beginFail =>
          simp only [henv] at h ⊢
          by_cases hr : r = 0
          · rw [if_pos hr] at h; simp at h
          · rw [if_neg hr] at h ⊢
            obtain ⟨k, body, cred, hk₁, hk₂, hmore⟩ := ih (a + 1) st h
            exact ⟨k, body, cred, by omega, by omega, hmore⟩
      | response code body =>
          simp only [henv] at h ⊢
          by_cases hc : code ≠ HTTP_CODE_OK
          · rw [if_pos hc] at h ⊢
            by_cases hr : r = 0
            · rw [if_pos hr] at h; simp at h
            · rw [if_neg hr] at h ⊢
              obtain ⟨k, body', cred, hk₁, hk₂, hmore⟩ := ih (a + 1) st h
              exact ⟨k, body', cred, by omega, by omega, hmore⟩
          · rw [if_neg hc] at h ⊢
            cases hp : parseWifiConfigJson body with
            | none =>
                simp only [hp] at h ⊢
                by_cases hr : r = 0
                · rw [if_pos hr] at h; simp at h
                · rw [if_neg hr] at h ⊢
                  obtain ⟨k, body', cred, hk₁, hk₂, hmore⟩ := ih (a + 1) st h
                  exact ⟨k, body', cred, by omega, by omega, hmore⟩
            | some cred =>
                simp only [hp]
                have hcode : code = HTTP_CODE_OK := by
                  by_contra hcc
                  exact hc hcc
                subst hcode
                exact ⟨a, body, cred, le_refl a, by omega, henv, hp, rfl⟩

/-- Every event of a `tryConnectWifiWithTimeout` call carries the caller's
provenance tag. -/
lemma tryConnectWifiWithTimeout_events (env : Env) (st : SysState) (ssid pass : String)
    (src : Src) :
    ∀ e ∈ (tryConnectWifiWithTimeout env st ssid pass src).2.2, ∃ s b, e = Ev.attempt src s b := by
  intro e he
  cases hw : st.wifi with
  | some c => simp [tryConnectWifiWithTimeout, hw] at he
  | none =>
      simp only [tryConnectWifiWithTimeout, hw] at he
      by_cases hr : env.reachable ssid pass = true
      · rw [if_pos hr] at he
        simp at he
        exact ⟨ssid, true, he⟩
      · rw [if_neg (by simpa using hr)] at he
        simp at he
        exact ⟨ssid, false, he⟩

/-- Every event of the default-list scan is a default-list attempt. -/
lemma connectWithDefaultWifiListAux_events (env : Env) :
    ∀ (l : List Credential) (st : SysState) (i : Nat),
      ∀ e ∈ (connectWithDefaultWifiListAux env st i l).2.2,
        ∃ j s b, e = Ev.attempt (Src.defaultIdx j) s b := by
  intro l
  induction l with
  | nil => intro st i e he; simp [connectWithDefaultWifiListAux] at he
  | cons c rest ih =>
      intro st i e he
      simp only [connectWithDefaultWifiListAux] at he
      by_cases hr : env.reachable c.ssid c.pass = true
      · rw [if_pos hr] at he
        simp at he
        exact ⟨i, c.ssid, true, he⟩
      · rw [if_neg (by simpa using hr)] at he
        simp only [List.mem_cons] at he
        cases he with
        | inl he => exact ⟨i, c.ssid, false, he⟩
        | inr he => exact ih { st with wifi := none } (i + 1) e he

/-- In-order correspondence of the default-list scan: the k-th emitted
event is the attempt on the k-th entry of the remaining list, with the
outcome the environment dictates. -/
lemma connectWithDefaultWifiListAux_get (env : Env) :
    ∀ (l : List Credential) (st : SysState) (i k : Nat),
      k < (connectWithDefaultWifiListAux env st i l).2.2.length →
      ∃ c, l[k]? = some c ∧
        (connectWithDefaultWifiListAux env st i l).2.2[k]? =
          some (Ev.attempt (Src.defaultIdx (i + k)) c.ssid (env.reachable c.ssid c.pass)) := by
  intro l
  induction l with
  | nil => intro st i k hk; simp [connectWithDefaultWifiListAux] at hk
  | cons c rest ih =>
      intro st i k hk
      simp only [connectWithDefaultWifiListAux] at hk ⊢
      by_cases hr : env.reachable c.ssid c.pass = true
      · rw [if_pos hr] at hk ⊢
        simp only [List.length_singleton] at hk
        interval_cases k
        exact ⟨c, by simp, by simp [hr]⟩
      · rw [if_neg (by simpa using hr)] at hk ⊢
        have hrf : env.reachable c.ssid c.pass = false := by
          simpa using hr
        cases k with
        | zero => exact ⟨c, by simp, by simp [hrf]⟩
        | succ j =>
            simp only [List.length_cons, Nat.succ_lt_succ_iff] at hk
            obtain ⟨c', hc₁, hc₂⟩ := ih { st with wifi := none } (i + 1) j hk
            refine ⟨c', by simpa using hc₁, ?_⟩
            have harith : i + 1 + j = i + (j + 1) := by omega
            simp only [List.getElem?_cons_succ]
            rw [← harith]
            exact hc₂

/-- Every entry strictly before the last emitted scan event failed to
connect: the first success stops the scan. -/
lemma connectWithDefaultWifiListAux_prefix_fail (env : Env) :
    ∀ (l : List Credential) (st : SysState) (i k : Nat),
      k + 1 < (connectWithDefaultWifiListAux env st i l).2.2.length →
      ∃ c, l[k]? = some c ∧ env.reachable c.ssid c.pass = false := by
  intro l
  induction l with
  | nil => intro st i k hk; simp [connectWithDefaultWifiListAux] at hk
  | cons c rest ih =>
      intro st i k hk
      simp only [connectWithDefaultWifiListAux] at hk
      by_cases hr : env.reachable c.ssid c.pass = true
      · rw [if_pos hr] at hk
        simp at hk
      · rw [if_neg (by simpa using hr)] at hk
        have hrf : env.reachable c.ssid c.pass = false := by
          simpa using hr
        cases k with
        | zero => exact ⟨c, by simp, hrf⟩
        | succ j =>
            simp only [List.length_cons, Nat.succ_lt_succ_iff] at hk
            obtain ⟨c', hc₁, hc₂⟩ := ih { st with wifi := none } (i + 1) j hk
            exact ⟨c', by simpa using hc₁, hc₂⟩

/-- The scan succeeds exactly when some remaining entry is reachable. -/
lemma connectWithDefaultWifiListAux_ok_iff (env : Env) :
    ∀ (l : List Credential) (st : SysState) (i : Nat),
      (connectWithDefaultWifiListAux env st i l).2.1 = true ↔
        ∃ c ∈ l, env.reachable c.ssid c.pass = true := by
  intro l
  induction l with
  | nil => intro st i; simp [connectWithDefaultWifiListAux]
  | cons c rest ih =>
      intro st i
      simp only [connectWithDefaultWifiListAux]
      by_cases hr : env.reachable c.ssid c.pass = true
      · rw [if_pos hr]
        simp [hr]
      · rw [if_neg (by simpa using hr)]
        simp only [List.mem_cons]
        constructor
        · intro h
          obtain ⟨c', hc₁, hc₂⟩ := (ih { st with wifi := none } (i + 1)).1 h
          exact ⟨c', Or.inr hc₁, hc₂⟩
        · rintro ⟨c', hc₁ | hc₁, hc₂⟩
          · rw [hc₁] at hc₂
            exact absurd hc₂ hr
          · exact (ih { st with wifi := none } (i + 1)).2 ⟨c', hc₁, hc₂⟩

/-- A failed scan leaves the state exactly as it was (WiFi was already
down and every iteration only re-cleared it). -/
lemma connectWithDefaultWifiListAux_fail_state (env : Env) :
    ∀ (l : List Credential) (st : SysState) (i : Nat), st.wifi = none →
      (connectWithDefaultWifiListAux env st i l).2.1 = false →
      (connectWithDefaultWifiListAux env st i l).1 = st := by
  intro l
  induction l with
  | nil => intro st i _ _; rfl
  | cons c rest ih =>
      intro st i hw h
      simp only [connectWithDefaultWifiListAux] at h ⊢
      by_cases hr : env.reachable c.ssid c.pass = true
      · rw [if_pos hr] at h
        simp at h
      · rw [if_neg (by simpa using hr)] at h ⊢
        rw [SysState_wifi_none_eta st hw] at h ⊢
        exact ih st i.succ hw h

/-- A successful scan ends connected to some reachable entry, all other
state fields untouched. -/
lemma connectWithDefaultWifiListAux_ok_state (env : Env) :
    ∀ (l : List Credential) (st : SysState) (i : Nat),
      (connectWithDefaultWifiListAux env st i l).2.1 = true →
      ∃ c ∈ l, env.reachable c.ssid c.pass = true ∧
        (connectWithDefaultWifiListAux env st i l).1 = { st with wifi := some c } := by
  intro l
  induction l with
  | nil => intro st i h; simp [connectWithDefaultWifiListAux] at h
  | cons c rest ih =>
      intro st i h
      simp only [connectWithDefaultWifiListAux] at h ⊢
      by_cases hr : env.reachable c.ssid c.pass = true
      · rw [if_pos hr]
        exact ⟨c, List.mem_cons_self c rest, hr, rfl⟩
      · rw [if_neg (by simpa using hr)] at h ⊢
        obtain ⟨c', hc₁, hc₂, hc₃⟩ := ih { st with wifi := none } (i + 1) h
        exact ⟨c', List.mem_cons_of_mem c hc₁, hc₂, hc₃⟩

/-- A successful scan emitted a successful default-list attempt event. -/
lemma connectWithDefaultWifiListAux_ok_mem (env : Env) :
    ∀ (l : List Credential) (st : SysState) (i : Nat),
      (connectWithDefaultWifiListAux env st i l).2.1 = true →
      ∃ j s, Ev.attempt (Src.defaultIdx j) s true ∈ (connectWithDefaultWifiListAux env st i l).2.2 := by
  intro l
  induction l with
  | nil => intro st i h; simp [connectWithDefaultWifiListAux] at h
  | cons c rest ih =>
      intro st i h
      simp only [connectWithDefaultWifiListAux] at h ⊢
      by_cases hr : env.reachable c.ssid c.pass = true
      · rw [if_pos hr]
        exact ⟨i, c.ssid, by simp⟩
      · rw [if_neg (by simpa using hr)] at h ⊢
        obtain ⟨j, s, hjs⟩ := ih { st with wifi := none } (i + 1) h
        exact ⟨j, s, List.mem_cons_of_mem _ hjs⟩

/-- When every entry is unreachable, the scan emits one (failed) attempt
per entry. -/
lemma connectWithDefaultWifiListAux_allfail_len (env : Env) :
    ∀ (l : List Credential) (st : SysState) (i : Nat),
      (∀ c ∈ l, env.reachable c.ssid c.pass = false) →
      (connectWithDefaultWifiListAux env st i l).2.2.length = l.length := by
  intro l
  induction l with
  | nil => intro st i _; rfl
  | cons c rest ih =>
      intro st i hall
      simp only [connectWithDefaultWifiListAux]
      have hrf : env.reachable c.ssid c.pass = false := hall c (List.mem_cons_self c rest)
      rw [if_neg (by simp [hrf])]
      simp only [List.length_cons]
      rw [ih { st with wifi := none } (i + 1) (fun c' hc' => hall c' (List.mem_cons_of_mem c hc'))]

/-- The fetch leaves exactly one event behind: its own invocation marker. -/
lemma fetchWifiConfigFromAWS_trace (env : Env) (st : SysState) :
    (fetchWifiConfigFromAWS env st).2.2 = [Ev.fetchInvoked] := by
  cases hw : st.wifi <;> simp [fetchWifiConfigFromAWS, hw]

/-- Every event of `connectWithDefaultWifiList` is a default-list attempt. -/
lemma connectWithDefaultWifiList_events (env : Env) (st : SysState) :
    ∀ e ∈ (connectWithDefaultWifiList env st).2.2, ∃ j s b, e = Ev.attempt (Src.defaultIdx j) s b := by
  intro e he
  cases hw : st.wifi with
  | some c => simp [connectWithDefaultWifiList, hw] at he
  | none =>
      simp only [connectWithDefaultWifiList, hw] at he
      exact connectWithDefaultWifiListAux_events env env.defaultWifiList st 0 e he

/-- No event of `fetchFromAWSAndMaybeSwitch` is a cached-credential
attempt: it only ever emits the fetch marker, cloud-credential attempts
and default-list attempts. -/
lemma fetchFromAWSAndMaybeSwitch_no_cached (env : Env) (st : SysState) :
    ∀ e ∈ (fetchFromAWSAndMaybeSwitch env st).2, ∀ s b, e ≠ Ev.attempt Src.cached s b := by
  intro e he s b
  simp only [fetchFromAWSAndMaybeSwitch] at he
  by_cases hok : (fetchWifiConfigFromAWS env st).2.1 = true
  · rw [if_pos hok] at he
    by_cases hcl : (tryConnectWifiWithTimeout env { (fetchWifiConfigFromAWS env st).1 with wifi := none }
        (fetchWifiConfigFromAWS env st).1.cloudSsid (fetchWifiConfigFromAWS env st).1.cloudPass
        Src.cloudCred).2.1 = true
    · rw [if_pos hcl] at he
      rw [fetchWifiConfigFromAWS_trace] at he
      simp only [List.mem_append, List.mem_singleton] at he
      cases he with
      | inl he => simp [he]
      | inr he =>
          obtain ⟨s', b', he'⟩ := tryConnectWifiWithTimeout_events env _ _ _ Src.cloudCred e he
          simp [he']
    · rw [if_neg hcl] at he
      rw [fetchWifiConfigFromAWS_trace] at he
      simp only [List.append_assoc, List.mem_append, List.mem_singleton] at he
      rcases he with he | he | he
      · simp [he]
      · obtain ⟨s', b', he'⟩ := tryConnectWifiWithTimeout_events env _ _ _ Src.cloudCred e he
        simp [he']
      · obtain ⟨j, s', b', he'⟩ := connectWithDefaultWifiList_events env _ e he
        simp [he']
  · rw [if_neg hok] at he
    rw [fetchWifiConfigFromAWS_trace] at he
    simp only [List.mem_singleton] at he
    simp [he]

/-- Behaviour of the shared step-2 fall-through of `ensureWiFiConnected`:
the cloud fetch is only ever invoked after a successful attempt (and that
attempt is never the cloud credential's own); no cached attempt is
emitted beyond the prefix handed in; and the trace decomposes as the
prefix, then the in-order first-success-stops scan of the default list,
then (possibly) the cloud-sync tail — with total exhaustion of the
default list ending the cycle link-less. -/
lemma ensureWiFiConnectedStep2_spec (env : Env) (st : SysState) (pre : List Ev)
    (hw : st.wifi = none)
    (hpre : ∀ e ∈ pre, ∃ s, e = Ev.attempt Src.cached s false) :
    (∀ l₁ l₂, (ensureWiFiConnectedStep2 env st pre).2 = l₁ ++ Ev.fetchInvoked :: l₂ →
        ∃ src s, Ev.attempt src s true ∈ l₁ ∧ src ≠ Src.cloudCred) ∧
    (∀ e ∈ (ensureWiFiConnectedStep2 env st pre).2, e ∉ pre →
        ∀ s b, e ≠ Ev.attempt Src.cached s b) ∧
    ∃ scanTr rest,
      (ensureWiFiConnectedStep2 env st pre).2 = pre ++ (scanTr ++ rest) ∧
      (∀ k, k < scanTr.length → ∃ c, env.defaultWifiList[k]? = some c ∧
          scanTr[k]? = some (Ev.attempt (Src.defaultIdx k) c.ssid (env.reachable c.ssid c.pass))) ∧
      (∀ k, k + 1 < scanTr.length → ∃ c, env.defaultWifiList[k]? = some c ∧
          env.reachable c.ssid c.pass = false) ∧
      ((∀ c ∈ env.defaultWifiList, env.reachable c.ssid c.pass = false) →
          scanTr.length = env.defaultWifiList.length ∧ rest = [] ∧
          (ensureWiFiConnectedStep2 env st pre).1.wifi = none) := by
  have hconn : connectWithDefaultWifiList env st =
      connectWithDefaultWifiListAux env st 0 env.defaultWifiList := by
    simp [connectWithDefaultWifiList, hw]
  by_cases hok : (connectWithDefaultWifiListAux env st 0 env.defaultWifiList).2.1 = true
  · have hstep : ensureWiFiConnectedStep2 env st pre =
        ((fetchFromAWSAndMaybeSwitch env
            (connectWithDefaultWifiListAux env st 0 env.defaultWifiList).1).1,
          pre ++ (connectWithDefaultWifiListAux env st 0 env.defaultWifiList).2.2 ++
            (fetchFromAWSAndMaybeSwitch env
              (connectWithDefaultWifiListAux env st 0 env.defaultWifiList).1).2) := by
      simp only [ensureWiFiConnectedStep2, hconn]
      rw [if_pos hok]
    rw [hstep]
    refine ⟨?_, ?_, ?_⟩
    · intro l₁ l₂ hsplit
      have hnofetch : Ev.fetchInvoked ∉
          pre ++ (connectWithDefaultWifiListAux env st 0 env.defaultWifiList).2.2 := by
        intro hmem
        rcases List.mem_append.1 hmem with hmem | hmem
        · obtain ⟨s, hs⟩ := hpre _ hmem
          exact Ev.noConfusion hs
        · obtain ⟨j, s, b, hs⟩ := connectWithDefaultWifiListAux_events env _ st 0 _ hmem
          exact Ev.noConfusion hs
      obtain ⟨t, ht, _⟩ := append_eq_append_cons hnofetch hsplit
      obtain ⟨j, s, hjs⟩ := connectWithDefaultWifiListAux_ok_mem env env.defaultWifiList st 0 hok
      refine ⟨Src.defaultIdx j, s, ?_, by simp⟩
      rw [ht]
      exact List.mem_append_left t (List.mem_append_right pre hjs)
    · intro e he hne s b heq
      simp only [List.append_assoc, List.mem_append] at he
      rcases he with he | he | he
      · exact hne he
      · obtain ⟨j, s', b', hs⟩ := connectWithDefaultWifiListAux_events env _ st 0 _ he
        rw [heq] at hs
        simp at hs
      · exact fetchFromAWSAndMaybeSwitch_no_cached env _ e he s b heq
    · refine ⟨(connectWithDefaultWifiListAux env st 0 env.defaultWifiList).2.2,
        (fetchFromAWSAndMaybeSwitch env
          (connectWithDefaultWifiListAux env st 0 env.defaultWifiList).1).2,
        by simp, ?_, ?_, ?_⟩
      · intro k hk
        obtain ⟨c, hc₁, hc₂⟩ := connectWithDefaultWifiListAux_get env env.defaultWifiList st 0 k hk
        rw [Nat.zero_add] at hc₂
        exact ⟨c, hc₁, hc₂⟩
      · intro k hk
        exact connectWithDefaultWifiListAux_prefix_fail env env.defaultWifiList st 0 k hk
      · intro hall
        obtain ⟨c, hc₁, hc₂⟩ :=
          (connectWithDefaultWifiListAux_ok_iff env env.defaultWifiList st 0).1 hok
        rw [hall c hc₁] at hc₂
        exact absurd hc₂ (by simp)
  · have hok' : (connectWithDefaultWifiListAux env st 0 env.defaultWifiList).2.1 = false := by
      simpa using hok
    have hstep : ensureWiFiConnectedStep2 env st pre =
        ((connectWithDefaultWifiListAux env st 0 env.defaultWifiList).1,
          pre ++ (connectWithDefaultWifiListAux env st 0 env.defaultWifiList).2.2) := by
      simp only [ensureWiFiConnectedStep2, hconn]
      rw [if_neg hok]
    rw [hstep]
    refine ⟨?_, ?_, ?_⟩
    · intro l₁ l₂ hsplit
      simp only [] at hsplit
      have hmem : Ev.fetchInvoked ∈
          pre ++ (connectWithDefaultWifiListAux env st 0 env.defaultWifiList).2.2 := by
        rw [hsplit]
        exact List.mem_append_right l₁ (List.mem_cons_self _ _)
      rcases List.mem_append.1 hmem with hmem | hmem
      · obtain ⟨s, hs⟩ := hpre _ hmem
        exact absurd hs (by simp)
      · obtain ⟨j, s, b, hs⟩ := connectWithDefaultWifiListAux_events env _ st 0 _ hmem
        exact absurd hs (by simp)
    · intro e he hne s b heq
      rcases List.mem_append.1 he with he | he
      · exact hne he
      · obtain ⟨j, s', b', hs⟩ := connectWithDefaultWifiListAux_events env _ st 0 _ he
        rw [heq] at hs
        simp at hs
    · refine ⟨(connectWithDefaultWifiListAux env st 0 env.defaultWifiList).2.2, [],
        by simp, ?_, ?_, ?_⟩
      · intro k hk
        obtain ⟨c, hc₁, hc₂⟩ := connectWithDefaultWifiListAux_get env env.defaultWifiList st 0 k hk
        rw [Nat.zero_add] at hc₂
        exact ⟨c, hc₁, hc₂⟩
      · intro k hk
        exact connectWithDefaultWifiListAux_prefix_fail env env.defaultWifiList st 0 k hk
      · intro hall
        refine ⟨connectWithDefaultWifiListAux_allfail_len env env.defaultWifiList st 0 hall,
          rfl, ?_⟩
        rw [connectWithDefaultWifiListAux_fail_state env env.defaultWifiList st 0 hw hok']
        exact hw

/-- The chunked write loop never emits the finalize event. -/
lemma publishWriteLoop_no_end (env : PubEnv) (len : Nat) :
    ∀ (fuel k sent : Nat), PubEv.endPub ∉ (publishWriteLoop env len k sent fuel).2 := by
  intro fuel
  induction fuel with
  | zero => intro k sent; simp [publishWriteLoop]
  | succ fuel ih =>
      intro k sent
      simp only [publishWriteLoop]
      by_cases hsl : sent < len
      · rw [if_pos hsl]
        by_cases hw0 : min (env.writeRet k (min PUBLISH_CHUNK_SZ (len - sent)))
            (min PUBLISH_CHUNK_SZ (len - sent)) = 0
        · rw [if_pos hw0]
          simp
        · rw [if_neg hw0]
          simp only [List.mem_cons, not_or]
          exact ⟨by simp, ih (k + 1) _⟩
      · rw [if_neg hsl]
        simp

/-- A zero-accepted write event ends the loop's trace, and the loop then
stops short of the full length. -/
lemma publishWriteLoop_zero_last (env : PubEnv) (len : Nat) :
    ∀ (fuel k sent : Nat) (l₁ : List PubEv) (n : Nat) (l₂ : List PubEv),
      (publishWriteLoop env len k sent fuel).2 = l₁ ++ PubEv.write n 0 :: l₂ →
      l₂ = [] ∧ (publishWriteLoop env len k sent fuel).1 < len := by
  intro fuel
  induction fuel with
  | zero =>
      intro k sent l₁ n l₂ h
      simp only [publishWriteLoop] at h
      rcases l₁ with _ | ⟨x, l₁⟩ <;> simp at h
  | succ fuel ih =>
      intro k sent l₁ n l₂ h
      simp only [publishWriteLoop] at h ⊢
      by_cases hsl : sent < len
      · rw [if_pos hsl] at h ⊢
        by_cases hw0 : min (env.writeRet k (min PUBLISH_CHUNK_SZ (len - sent)))
            (min PUBLISH_CHUNK_SZ (len - sent)) = 0
        · rw [if_pos hw0] at h ⊢
          rcases l₁ with _ | ⟨x, l₁⟩
          · simp only [List.nil_append, List.cons.injEq] at h
            exact ⟨h.2.symm, hsl⟩
          · simp only [List.cons_append, List.cons.injEq] at h
            exact absurd h.2.symm (by simp)
        · rw [if_neg hw0] at h ⊢
          rcases l₁ with _ | ⟨x, l₁⟩
          · simp only [List.nil_append, List.cons.injEq, PubEv.write.injEq] at h
            exact absurd h.1.2 hw0
          · simp only [List.cons_append, List.cons.injEq] at h
            exact ih (k + 1) _ l₁ n l₂ h.2
      · rw [if_neg hsl] at h
        rcases l₁ with _ | ⟨x, l₁⟩ <;> simp at h

/-- `writtenSum` distributes over concatenation. -/
lemma writtenSum_append (a b : List PubEv) :
    writtenSum (a ++ b) = writtenSum a + writtenSum b := by
  induction a with
  | nil => simp [writtenSum]
  | cons x t ih =>
      cases x <;> simp [writtenSum, ih] <;> omega

/-- The bytes recorded in the loop's trace account exactly for the
distance the loop advanced `sent`. -/
lemma publishWriteLoop_sum (env : PubEnv) (len : Nat) :
    ∀ (fuel k sent : Nat),
      writtenSum (publishWriteLoop env len k sent fuel).2 + sent =
        (publishWriteLoop env len k sent fuel).1 := by
  intro fuel
  induction fuel with
  | zero => intro k sent; simp [publishWriteLoop, writtenSum]
  | succ fuel ih =>
      intro k sent
      simp only [publishWriteLoop]
      by_cases hsl : sent < len
      · rw [if_pos hsl]
        by_cases hw0 : min (env.writeRet k (min PUBLISH_CHUNK_SZ (len - sent)))
            (min PUBLISH_CHUNK_SZ (len - sent)) = 0
        · rw [if_pos hw0]
          simp [writtenSum]
        · rw [if_neg hw0]
          simp only [writtenSum]
          have := ih (k + 1) (sent + min (env.writeRet k (min PUBLISH_CHUNK_SZ (len - sent)))
            (min PUBLISH_CHUNK_SZ (len - sent)))
          omega
      · rw [if_neg hsl]
        simp [writtenSum]

/-! ### Claim theorems -/

/-- Claim C5: a captured frame whose encoded length is exactly the
configured size ceiling is accepted and copied (given an allocator for
the copy), while a frame exceeding the ceiling by at least one byte is
rejected with the hardware frame released back to the driver and no
allocation or copy attempted. -/
theorem captureToPSRAM_size_boundary (env : CamEnv) (len : Nat) (hframe : env.frame = some len) :
    (len = MQTT_MAX_IMAGE_BYTES → env.psMallocOk = true →
        (captureToPSRAM env).1 = some len ∧
        (captureToPSRAM env).2 =
          [CapEv.fbGet true, CapEv.allocTry 0 true, CapEv.copy len, CapEv.fbReturn]) ∧
    (MQTT_MAX_IMAGE_BYTES < len →
        (captureToPSRAM env).1 = none ∧
        (captureToPSRAM env).2 = [CapEv.fbGet true, CapEv.fbReturn]) := by
  constructor
  · intro hlen hps
    subst hlen
    simp [captureToPSRAM, hframe, hps]
  · intro hgt
    simp only [captureToPSRAM, hframe]
    rw [if_pos hgt]
    exact ⟨rfl, rfl⟩

/-- Witness for C5 at the two boundary frames. -/
theorem captureToPSRAM_size_boundary_witness :
    (captureToPSRAM camAtCeiling).1 = some MQTT_MAX_IMAGE_BYTES ∧
    (captureToPSRAM camOverCeiling).1 = none ∧
    (captureToPSRAM camOverCeiling).2 = [CapEv.fbGet true, CapEv.fbReturn] := by
  refine ⟨?_, ?_, ?_⟩
  · exact ((captureToPSRAM_size_boundary camAtCeiling MQTT_MAX_IMAGE_BYTES rfl).1 rfl rfl).1
  · exact ((captureToPSRAM_size_boundary camOverCeiling (MQTT_MAX_IMAGE_BYTES + 1) rfl).2
      (by omega)).1
  · exact ((captureToPSRAM_size_boundary camOverCeiling (MQTT_MAX_IMAGE_BYTES + 1) rfl).2
      (by omega)).2

/-- Claim C6: a body carrying a non-empty identifier under either
accepted field-name pair parses to that identifier and secret; a body
missing both identifier variants, an empty payload, and malformed JSON
all fail to parse. -/
theorem parseWifiConfigJson_field_pairs (d : JsonDoc) :
    (∀ s q, d.ssid = some s → 0 < s.length → d.password = some q →
        parseWifiConfigJson (Payload.obj d) = some ⟨s, q⟩) ∧
    (∀ s q, d.ssid = none → d.wifi_ssid = some s → 0 < s.length →
        d.password = none → d.wifi_password = some q →
        parseWifiConfigJson (Payload.obj d) = some ⟨s, q⟩) ∧
    (d.ssid = none → d.wifi_ssid = none → parseWifiConfigJson (Payload.obj d) = none) ∧
    parseWifiConfigJson Payload.empty = none ∧
    parseWifiConfigJson Payload.malformed = none := by
  refine ⟨?_, ?_, ?_, rfl, rfl⟩
  · intro s q hs hlen hq
    simp [parseWifiConfigJson, hs, hq, hlen]
  · intro s q hs hws hlen hp hwp
    simp [parseWifiConfigJson, hs, hws, hlen, hp, hwp]
  · intro h₁ h₂
    simp [parseWifiConfigJson, h₁, h₂]

/-- Witness for C6 on one body of each shape. -/
theorem parseWifiConfigJson_field_pairs_witness :
    parseWifiConfigJson (Payload.obj docPair1) = some ⟨"net", "pw"⟩ ∧
    parseWifiConfigJson (Payload.obj docPair2) = some ⟨"net2", "pw2"⟩ ∧
    parseWifiConfigJson (Payload.obj docNoIdent) = none := by
  refine ⟨?_, ?_, ?_⟩
  · exact (parseWifiConfigJson_field_pairs docPair1).1 "net" "pw" rfl (by decide) rfl
  · exact (parseWifiConfigJson_field_pairs docPair2).2.1 "net2" "pw2" rfl rfl (by decide) rfl rfl
  · exact (parseWifiConfigJson_field_pairs docNoIdent).2.2.1 rfl rfl

/-- Claim C9 (amended to credentials with a non-empty identifier, as the
store's load treats an empty stored ssid as no record): saving the same
credential twice leaves load returning it, and saving a new credential
after any previous one fully replaces it. -/
theorem saveWifiConfigToNVS_idempotent_replace (nvs : NVS) (c₁ c₂ : Credential)
    (h : 0 < c₂.ssid.length) :
    loadWifiConfigFromNVS
        (saveWifiConfigToNVS (saveWifiConfigToNVS nvs c₂.ssid c₂.pass) c₂.ssid c₂.pass) =
      some c₂ ∧
    loadWifiConfigFromNVS
        (saveWifiConfigToNVS (saveWifiConfigToNVS nvs c₁.ssid c₁.pass) c₂.ssid c₂.pass) =
      some c₂ := by
  constructor <;> simp [saveWifiConfigToNVS, loadWifiConfigFromNVS, h]

/-- Counterexample to C9 as stated: for the credential with an empty
identifier, saving it twice leaves load returning nothing, not the
credential. -/
theorem saveWifiConfigToNVS_empty_ssid_cex :
    loadWifiConfigFromNVS
        (saveWifiConfigToNVS (saveWifiConfigToNVS { ssidKey := none, passKey := none } "" "pw")
          "" "pw") = none ∧
    loadWifiConfigFromNVS
        (saveWifiConfigToNVS (saveWifiConfigToNVS { ssidKey := none, passKey := none } "" "pw")
          "" "pw") ≠ some ⟨"", "pw"⟩ := by
  decide

/-- Witness for the amended C9 at a concrete credential pair. -/
theorem saveWifiConfigToNVS_idempotent_replace_witness :
    loadWifiConfigFromNVS
        (saveWifiConfigToNVS
          (saveWifiConfigToNVS { ssidKey := none, passKey := none } "a" "b") "net" "pw") =
      some ⟨"net", "pw"⟩ :=
  (saveWifiConfigToNVS_idempotent_replace { ssidKey := none, passKey := none }
    ⟨"a", "b"⟩ ⟨"net", "pw"⟩ (by decide)).2

/-- Claim C10: a null buffer pointer, a zero-length buffer, or a
disconnected broker session makes publish return failure immediately,
with no topic built and no begin, write, or finalize event. -/
theorem publishImageBinary_guard (env : PubEnv) (connected dataNull : Bool) (len : Nat)
    (h : dataNull = true ∨ len = 0 ∨ connected = false) :
    publishImageBinary env connected dataNull len = (false, []) := by
  simp only [publishImageBinary]
  rw [if_pos h]

/-- Witness for C10: a disconnected session with a non-empty buffer. -/
theorem publishImageBinary_guard_witness :
    publishImageBinary envPubOk false false 5 = (false, []) :=
  publishImageBinary_guard envPubOk false false 5 (Or.inr (Or.inr rfl))

/-- Claim C7 (amended): when the subscribe and the request publish both
succeed, the response callback is cleared (`setCallback(nullptr)`)
before the function returns on every outcome of the wait — response
received, timeout, or malformed payload.  (On an early subscribe or
request-publish failure the callback stays installed, and the topic
subscription itself is never explicitly removed on any path.) -/
theorem fetchWifiConfigFromIoT_callback_cleared (env : Env) (st : SysState)
    (hmq : st.mqttConnected = true) (hsub : env.subscribeOk = true)
    (hpub : env.publishReqOk = true) :
    (fetchWifiConfigFromIoT env st).1.cbInstalled = false := by
  simp only [fetchWifiConfigFromIoT]
  rw [if_neg (by simp [hmq]), if_neg (by simp [hsub]), if_neg (by simp [hpub])]
  cases hres : env.iotResponse with
  | none => simp
  | some body =>
      cases hp : parseWifiConfigJson body with
      | none => simp [hp]
      | some cred => simp [hp]

/-- Counterexample to C7 as stated: when the request publish fails, the
function returns early with the callback still installed (and the
subscription still active), so the teardown does not happen on every
outcome. -/
theorem fetchWifiConfigFromIoT_stale_callback_cex :
    (fetchWifiConfigFromIoT envC7 stMqtt).2 = false ∧
    (fetchWifiConfigFromIoT envC7 stMqtt).1.cbInstalled = true ∧
    (fetchWifiConfigFromIoT envC7 stMqtt).1.subscribed = true := by
  decide

/-- Witness for the amended C7: subscribe and request publish succeed and
the wait times out; the callback is cleared. -/
theorem fetchWifiConfigFromIoT_callback_cleared_witness :
    (fetchWifiConfigFromIoT envW7 stMqtt).1.cbInstalled = false :=
  fetchWifiConfigFromIoT_callback_cleared envW7 stMqtt rfl rfl rfl

/-- Claim C2 (amended): each fetch variant itself persists a successfully
fetched credential to the credential store — overwriting the record —
before returning, and on failure leaves the store untouched; the caller
performs no persistence of its own. -/
theorem fetch_persists_inside_fetcher (env : Env) (st : SysState) :
    ((fetchWifiConfigFromAWS env st).2.1 = false →
        (fetchWifiConfigFromAWS env st).1.nvs = st.nvs) ∧
    ((fetchWifiConfigFromAWS env st).2.1 = true →
        (fetchWifiConfigFromAWS env st).1.nvs =
          saveWifiConfigToNVS st.nvs (fetchWifiConfigFromAWS env st).1.cloudSsid
            (fetchWifiConfigFromAWS env st).1.cloudPass) ∧
    ((fetchWifiConfigFromIoT env st).2 = false →
        (fetchWifiConfigFromIoT env st).1.nvs = st.nvs) ∧
    ((fetchWifiConfigFromIoT env st).2 = true →
        (fetchWifiConfigFromIoT env st).1.nvs =
          saveWifiConfigToNVS st.nvs (fetchWifiConfigFromIoT env st).1.cloudSsid
            (fetchWifiConfigFromIoT env st).1.cloudPass) := by
  refine ⟨?_, ?_, ?_, ?_⟩
  · intro h
    cases hw : st.wifi with
    | none => simp [fetchWifiConfigFromAWS, hw]
    | some c =>
        simp only [fetchWifiConfigFromAWS, hw] at h ⊢
        rw [fetchWifiConfigFromAWSAux_false env AWS_FETCH_MAX_RETRIES 1 st h]
  · intro h
    cases hw : st.wifi with
    | none => simp [fetchWifiConfigFromAWS, hw] at h
    | some c =>
        simp only [fetchWifiConfigFromAWS, hw] at h ⊢
        obtain ⟨k, body, cred, _, _, _, _, hstate⟩ :=
          fetchWifiConfigFromAWSAux_true env AWS_FETCH_MAX_RETRIES 1 st h
        rw [hstate]
  · intro h
    simp only [fetchWifiConfigFromIoT] at h ⊢
    by_cases hmq : st.mqttConnected = false
    · rw [if_pos hmq]
    · rw [if_neg hmq] at h ⊢
      by_cases hsub : env.subscribeOk = false
      · rw [if_pos hsub]
      · rw [if_neg hsub] at h ⊢
        by_cases hpub : env.publishReqOk = false
        · rw [if_pos hpub]
        · rw [if_neg hpub] at h ⊢
          cases hres : env.iotResponse with
          | none => simp
          | some body =>
              simp only [hres] at h ⊢
              cases hp : parseWifiConfigJson body with
              | none => simp [hp]
              | some cred => simp [hp] at h
  · intro h
    simp only [fetchWifiConfigFromIoT] at h ⊢
    by_cases hmq : st.mqttConnected = false
    · rw [if_pos hmq] at h
      simp at h
    · rw [if_neg hmq] at h ⊢
      by_cases hsub : env.subscribeOk = false
      · rw [if_pos hsub] at h
        simp at h
      · rw [if_neg hsub] at h ⊢
        by_cases hpub : env.publishReqOk = false
        · rw [if_pos hpub] at h
          simp at h
        · rw [if_neg hpub] at h ⊢
          cases hres : env.iotResponse with
          | none => simp [hres] at h
          | some body =>
              simp only [hres] at h ⊢
              cases hp : parseWifiConfigJson body with
              | none => simp [hp] at h
              | some cred => simp [hp]

/-- Counterexample to C2 as stated: a successful point-to-point fetch
itself overwrites the NVS record — persistence happens inside the fetch,
not in the caller. -/
theorem fetch_writes_store_cex :
    (fetchWifiConfigFromAWS envHttp200 stLinkUp).2.1 = true ∧
    (fetchWifiConfigFromAWS envHttp200 stLinkUp).1.nvs ≠ stLinkUp.nvs ∧
    (fetchWifiConfigFromAWS envHttp200 stLinkUp).1.nvs =
      { ssidKey := some "newnet", passKey := some "npw" } := by
  decide

/-- Witness for the amended C2: the successful fetch's final store equals
an explicit overwrite with the fetched credential. -/
theorem fetch_persists_inside_fetcher_witness :
    (fetchWifiConfigFromAWS envHttp200 stLinkUp).1.nvs =
      saveWifiConfigToNVS stLinkUp.nvs (fetchWifiConfigFromAWS envHttp200 stLinkUp).1.cloudSsid
        (fetchWifiConfigFromAWS envHttp200 stLinkUp).1.cloudPass :=
  (fetch_persists_inside_fetcher envHttp200 stLinkUp).2.1 (by decide)

/-- Claim C8 (amended): a point-to-point fetch reports success only if
some attempt in range received status exactly 200 (`HTTP_CODE_OK`) with
a parseable body; any other status — other 2xx codes included — is
treated as a failed attempt. -/
theorem fetchWifiConfigFromAWS_success_needs_200 (env : Env) (st : SysState)
    (h : (fetchWifiConfigFromAWS env st).2.1 = true) :
    ∃ k body cred, 1 ≤ k ∧ k ≤ AWS_FETCH_MAX_RETRIES ∧
      env.http k = HttpAttempt.response HTTP_CODE_OK body ∧
      parseWifiConfigJson body = some cred := by
  cases hw : st.wifi with
  | none => simp [fetchWifiConfigFromAWS, hw] at h
  | some c =>
      simp only [fetchWifiConfigFromAWS, hw] at h
      obtain ⟨k, body, cred, hk₁, hk₂, hhttp, hparse, _⟩ :=
        fetchWifiConfigFromAWSAux_true env AWS_FETCH_MAX_RETRIES 1 st h
      exact ⟨k, body, cred, hk₁, by omega, hhttp, hparse⟩

/-- Counterexample to C8 as stated: every attempt answers 204 — a 2xx
status — with a perfectly valid credential body, yet the fetch fails. -/
theorem fetch_204_not_success_cex :
    parseWifiConfigJson (Payload.obj ⟨some "newnet", some "npw", none, none⟩) =
      some ⟨"newnet", "npw"⟩ ∧
    (fetchWifiConfigFromAWS envHttp204 stLinkUp).2.1 = false := by
  decide

/-- Witness for the amended C8 on the all-200 environment. -/
theorem fetchWifiConfigFromAWS_success_needs_200_witness :
    ∃ k body cred, 1 ≤ k ∧ k ≤ AWS_FETCH_MAX_RETRIES ∧
      envHttp200.http k = HttpAttempt.response HTTP_CODE_OK body ∧
      parseWifiConfigJson body = some cred :=
  fetchWifiConfigFromAWS_success_needs_200 envHttp200 stLinkUp (by decide)

/-- Claim C3 (amended): over a connected session with a non-empty buffer
and a successful begin, a chunk write that accepts zero bytes ends the
write sequence immediately and the call reports failure; the finalize
step is invoked exactly when the cumulative accepted bytes equal the
buffer length; and success is reported only with the finalize invoked
and acknowledged.  (On a short write the transfer is left unfinalized:
the short-circuited `(sent == len) && endPublish()` skips `endPublish`,
and no abandon operation exists.) -/
theorem publishImageBinary_chunk_semantics (env : PubEnv) (len : Nat) (hlen : 0 < len)
    (hbegin : env.beginOk = true) :
    ((publishImageBinary env true false len).1 = true ↔
        PubEv.endPub ∈ (publishImageBinary env true false len).2 ∧ env.endOk = true) ∧
    (PubEv.endPub ∈ (publishImageBinary env true false len).2 ↔
        writtenSum (publishImageBinary env true false len).2 = len) ∧
    (∀ l₁ n l₂, (publishImageBinary env true false len).2 = l₁ ++ PubEv.write n 0 :: l₂ →
        l₂ = [] ∧ (publishImageBinary env true false len).1 = false) := by
  have hguard : ¬(false = true ∨ len = 0 ∨ true = false) := by
    simp
    omega
  have hsum0 : writtenSum (publishWriteLoop env len 0 0 len).2 =
      (publishWriteLoop env len 0 0 len).1 := by
    have := publishWriteLoop_sum env len len 0 0
    omega
  by_cases hfull : (publishWriteLoop env len 0 0 len).1 = len
  · have hred : publishImageBinary env true false len =
        (env.endOk, [PubEv.topicBuilt, PubEv.beginPub len] ++
          (publishWriteLoop env len 0 0 len).2 ++ [PubEv.endPub]) := by
      simp only [publishImageBinary]
      rw [if_neg hguard]
      rw [if_neg (by simp [hbegin])]
      rw [if_pos hfull]
    rw [hred]
    have hmemEnd : PubEv.endPub ∈ [PubEv.topicBuilt, PubEv.beginPub len] ++
        (publishWriteLoop env len 0 0 len).2 ++ [PubEv.endPub] :=
      List.mem_append_right _ (List.mem_singleton.2 rfl)
    refine ⟨?_, ?_, ?_⟩
    · constructor
      · intro h
        exact ⟨hmemEnd, h⟩
      · intro h
        exact h.2
    · constructor
      · intro _
        rw [writtenSum_append, writtenSum_append, hsum0]
        simp [writtenSum]
        omega
      · intro _
        exact hmemEnd
    · intro l₁ n l₂ hsplit
      exfalso
      simp only [] at hsplit
      have hmem : PubEv.write n 0 ∈ [PubEv.topicBuilt, PubEv.beginPub len] ++
          (publishWriteLoop env len 0 0 len).2 ++ [PubEv.endPub] := by
        rw [hsplit]
        exact List.mem_append_right l₁ (List.mem_cons_self _ _)
      rcases List.mem_append.1 hmem with hmem | hmem
      · rcases List.mem_append.1 hmem with hmem | hmem
        · simp at hmem
        · obtain ⟨s, t, hst⟩ := List.append_of_mem hmem
          have := publishWriteLoop_zero_last env len len 0 0 s n t hst
          omega
      · simp at hmem
  · have hred : publishImageBinary env true false len =
        (false, [PubEv.topicBuilt, PubEv.beginPub len] ++
          (publishWriteLoop env len 0 0 len).2) := by
      simp only [publishImageBinary]
      rw [if_neg hguard]
      rw [if_neg (by simp [hbegin])]
      rw [if_neg hfull]
    rw [hred]
    have hnoEnd : PubEv.endPub ∉ [PubEv.topicBuilt, PubEv.beginPub len] ++
        (publishWriteLoop env len 0 0 len).2 := by
      intro hmem
      rcases List.mem_append.1 hmem with hmem | hmem
      · simp at hmem
      · exact publishWriteLoop_no_end env len len 0 0 hmem
    refine ⟨?_, ?_, ?_⟩
    · constructor
      · intro h
        simp at h
      · intro h
        exact absurd h.1 hnoEnd
    · constructor
      · intro h
        exact absurd h hnoEnd
      · intro h
        exfalso
        rw [writtenSum_append] at h
        simp [writtenSum] at h
        rw [hsum0] at h
        exact hfull h
    · intro l₁ n l₂ hsplit
      simp only [] at hsplit
      have hnw : PubEv.write n 0 ∉ [PubEv.topicBuilt, PubEv.beginPub len] := by
        simp
      obtain ⟨t, _, hloop⟩ := append_eq_append_cons hnw hsplit
      have := publishWriteLoop_zero_last env len len 0 0 t n l₂ hloop
      exact ⟨this.1, rfl⟩

/-- Counterexample to C3 as stated: a 3000-byte publish whose transport
accepts the first chunk and then zero bytes fails, but the started
transfer is neither finalized nor abandoned — no finalize event exists
in the trace. -/
theorem publish_short_write_unfinalized_cex :
    (publishImageBinary envC3 true false 3000).1 = false ∧
    PubEv.beginPub 3000 ∈ (publishImageBinary envC3 true false 3000).2 ∧
    PubEv.write 952 0 ∈ (publishImageBinary envC3 true false 3000).2 ∧
    PubEv.endPub ∉ (publishImageBinary envC3 true false 3000).2 := by
  decide

/-- Witness for the amended C3: a fully accepted 4096-byte publish
succeeds. -/
theorem publishImageBinary_chunk_semantics_witness :
    (publishImageBinary envPubOk true false 4096).1 = true :=
  ((publishImageBinary_chunk_semantics envPubOk 4096 (by decide) rfl).1).mpr
    ⟨by decide, rfl⟩

/-- Claim C4: with a link up, when the cloud fetch succeeds on its first
attempt with a new credential that then turns out unreachable, the
manager falls back to the default list — restoring a link via its first
reachable entry — and the store afterwards holds the newly fetched
(unreachable) credential, which the next cycle's step 1 will therefore
retry. -/
theorem fetchFromAWSAndMaybeSwitch_fallback_keeps_new (env : Env) (st : SysState)
    (d₀ : Credential) (rest : List Credential) (body : Payload) (cred : Credential)
    (d : Credential) (hlink : st.wifi = some d)
    (hhttp : env.http 1 = HttpAttempt.response HTTP_CODE_OK body)
    (hparse : parseWifiConfigJson body = some cred)
    (hbad : env.reachable cred.ssid cred.pass = false)
    (hlist : env.defaultWifiList = d₀ :: rest)
    (hgood : env.reachable d₀.ssid d₀.pass = true) :
    (fetchFromAWSAndMaybeSwitch env st).1.wifi = some d₀ ∧
    (fetchFromAWSAndMaybeSwitch env st).1.nvs =
      saveWifiConfigToNVS st.nvs cred.ssid cred.pass ∧
    loadWifiConfigFromNVS (fetchFromAWSAndMaybeSwitch env st).1.nvs = some cred := by
  have h5 : AWS_FETCH_MAX_RETRIES = 4 + 1 := rfl
  have haux : fetchWifiConfigFromAWSAux env st 1 AWS_FETCH_MAX_RETRIES =
      ({ st with
          cloudSsid := cred.ssid
          cloudPass := cred.pass
          cloudFlag := true
          nvs := saveWifiConfigToNVS st.nvs cred.ssid cred.pass }, true) := by
    rw [h5]
    simp only [fetchWifiConfigFromAWSAux, hhttp]
    rw [if_neg (by simp)]
    simp only [hparse]
  have hfetch : fetchWifiConfigFromAWS env st =
      ({ st with
          cloudSsid := cred.ssid
          cloudPass := cred.pass
          cloudFlag := true
          nvs := saveWifiConfigToNVS st.nvs cred.ssid cred.pass }, true, [Ev.fetchInvoked]) := by
    simp only [fetchWifiConfigFromAWS, hlink, haux]
  have hswitch : (fetchFromAWSAndMaybeSwitch env st).1 =
      { st with
          wifi := some d₀
          cloudSsid := cred.ssid
          cloudPass := cred.pass
          cloudFlag := false
          nvs := saveWifiConfigToNVS st.nvs cred.ssid cred.pass } := by
    simp only [fetchFromAWSAndMaybeSwitch, hfetch]
    rw [if_pos trivial]
    simp [tryConnectWifiWithTimeout, hbad, connectWithDefaultWifiList,
      connectWithDefaultWifiListAux, hlist, hgood]
  have hpos : 0 < cred.ssid.length := parseWifiConfigJson_ssid_pos hparse
  rw [hswitch]
  refine ⟨rfl, rfl, ?_⟩
  simp [loadWifiConfigFromNVS, saveWifiConfigToNVS, hpos]

/-- Witness for C4 on a concrete environment: link up via the default
entry, fetch yields an unreachable credential, fallback restores the
default link and the store keeps the new credential. -/
theorem fetchFromAWSAndMaybeSwitch_fallback_keeps_new_witness :
    (fetchFromAWSAndMaybeSwitch envW4 stW4).1.wifi = some ⟨"dnet", "dpw"⟩ ∧
    (fetchFromAWSAndMaybeSwitch envW4 stW4).1.nvs =
      saveWifiConfigToNVS stW4.nvs "newnet" "newpw" ∧
    loadWifiConfigFromNVS (fetchFromAWSAndMaybeSwitch envW4 stW4).1.nvs =
      some ⟨"newnet", "newpw"⟩ :=
  fetchFromAWSAndMaybeSwitch_fallback_keeps_new envW4 stW4 ⟨"dnet", "dpw"⟩ []
    (Payload.obj ⟨some "newnet", some "newpw", none, none⟩) ⟨"newnet", "newpw"⟩
    ⟨"dnet", "dpw"⟩ rfl rfl (by decide) (by decide) rfl (by decide)

/-- Claim C1: in every resolution cycle entered with the link down, the
cached credential (when the store has one) is attempted first — its
attempt is the very first event, before any default-list entry — and
when the store is empty no cached attempt happens at all; the cloud
config fetch is only ever invoked after some successful attempt, and
that attempt is a cached or default-list one (some link is already up);
and when the cache is absent or its attempt fails, the default entries
are scanned in order with the k-th event matching the k-th entry, every
event before the last being a failure (first success stops the scan),
and full exhaustion ending the cycle with no link. -/
theorem ensureWiFiConnected_resolution_order (env : Env) (st : SysState)
    (hdown : st.wifi = none) :
    (∀ c, loadWifiConfigFromNVS st.nvs = some c →
        (ensureWiFiConnected env st).2.head? =
          some (Ev.attempt Src.cached c.ssid (env.reachable c.ssid c.pass))) ∧
    (loadWifiConfigFromNVS st.nvs = none →
        ∀ s b, Ev.attempt Src.cached s b ∉ (ensureWiFiConnected env st).2) ∧
    (∀ l₁ l₂, (ensureWiFiConnected env st).2 = l₁ ++ Ev.fetchInvoked :: l₂ →
        ∃ src s, Ev.attempt src s true ∈ l₁ ∧ src ≠ Src.cloudCred) ∧
    ((loadWifiConfigFromNVS st.nvs = none ∨
        (∃ c, loadWifiConfigFromNVS st.nvs = some c ∧ env.reachable c.ssid c.pass = false)) →
      ∃ pre scanTr rest,
        (ensureWiFiConnected env st).2 = pre ++ (scanTr ++ rest) ∧
        (∀ e ∈ pre, ∃ s, e = Ev.attempt Src.cached s false) ∧
        (∀ k, k < scanTr.length → ∃ c, env.defaultWifiList[k]? = some c ∧
            scanTr[k]? = some (Ev.attempt (Src.defaultIdx k) c.ssid
              (env.reachable c.ssid c.pass))) ∧
        (∀ k, k + 1 < scanTr.length → ∃ c, env.defaultWifiList[k]? = some c ∧
            env.reachable c.ssid c.pass = false) ∧
        ((∀ c ∈ env.defaultWifiList, env.reachable c.ssid c.pass = false) →
            scanTr.length = env.defaultWifiList.length ∧ rest = [] ∧
            (ensureWiFiConnected env st).1.wifi = none)) := by
  cases hload : loadWifiConfigFromNVS st.nvs with
  | none =>
      have hens : ensureWiFiConnected env st = ensureWiFiConnectedStep2 env st [] := by
        simp only [ensureWiFiConnected, hdown, hload]
      obtain ⟨hB, hNC, scanTr, rest, hdec, hget, hpf, hallfail⟩ :=
        ensureWiFiConnectedStep2_spec env st [] hdown (by simp)
      rw [hens]
      refine ⟨?_, ?_, hB, ?_⟩
      · intro c hc
        exact absurd hc (by simp)
      · intro _ s b hmem
        exact absurd rfl (hNC _ hmem (List.not_mem_nil _) s b)
      · intro _
        refine ⟨[], scanTr, rest, by simpa using hdec, by simp, hget, hpf, hallfail⟩
  | some c =>
      by_cases hr : env.reachable c.ssid c.pass = true
      · have htc : tryConnectWifiWithTimeout env st c.ssid c.pass Src.cached =
            ({ st with wifi := some ⟨c.ssid, c.pass⟩ }, true, [Ev.attempt Src.cached c.ssid true]) := by
          simp only [tryConnectWifiWithTimeout, hdown]
          rw [if_pos hr]
        have hens : ensureWiFiConnected env st =
            ((fetchFromAWSAndMaybeSwitch env { st with wifi := some ⟨c.ssid, c.pass⟩ }).1,
              [Ev.attempt Src.cached c.ssid true] ++
                (fetchFromAWSAndMaybeSwitch env { st with wifi := some ⟨c.ssid, c.pass⟩ }).2) := by
          simp only [ensureWiFiConnected, hdown, hload, htc]
          rw [if_pos trivial]
        rw [hens]
        refine ⟨?_, ?_, ?_, ?_⟩
        · intro c' hc'
          injection hc' with hc'
          subst hc'
          rw [hr]
          rfl
        · intro hnone
          exact absurd hnone (by simp)
        · intro l₁ l₂ hsplit
          have hnf : Ev.fetchInvoked ∉ [Ev.attempt Src.cached c.ssid true] := by simp
          obtain ⟨t, ht, _⟩ := append_eq_append_cons hnf hsplit
          refine ⟨Src.cached, c.ssid, ?_, by simp⟩
          rw [ht]
          exact List.mem_append_left t (by simp)
        · intro hcase
          rcases hcase with hcase | ⟨c', hc', hcr⟩
          · exact absurd hcase (by simp)
          · injection hc' with hc'
            subst hc'
            rw [hr] at hcr
            exact absurd hcr (by simp)
      · have hrf : env.reachable c.ssid c.pass = false := by simpa using hr
        have htc : tryConnectWifiWithTimeout env st c.ssid c.pass Src.cached =
            ({ st with wifi := none }, false, [Ev.attempt Src.cached c.ssid false]) := by
          simp only [tryConnectWifiWithTimeout, hdown]
          rw [if_neg (by simp [hrf])]
        have hens : ensureWiFiConnected env st =
            ensureWiFiConnectedStep2 env { st with wifi := none }
              [Ev.attempt Src.cached c.ssid false] := by
          simp only [ensureWiFiConnected, hdown, hload, htc]
          rw [if_neg (by simp)]
        obtain ⟨hB, hNC, scanTr, rest, hdec, hget, hpf, hallfail⟩ :=
          ensureWiFiConnectedStep2_spec env { st with wifi := none }
            [Ev.attempt Src.cached c.ssid false] rfl
            (by
              intro e he
              simp only [List.mem_singleton] at he
              exact ⟨c.ssid, he⟩)
        rw [hens]
        refine ⟨?_, ?_, hB, ?_⟩
        · intro c' hc'
          injection hc' with hc'
          subst hc'
          rw [hrf, hdec]
          rfl
        · intro hnone
          exact absurd hnone (by simp)
        · intro _
          exact ⟨[Ev.attempt Src.cached c.ssid false], scanTr, rest, hdec,
            by
              intro e he
              simp only [List.mem_singleton] at he
              exact ⟨c.ssid, he⟩,
            hget, hpf, hallfail⟩

/-- Witness for C1: with a cached, reachable credential present, the very
first event of the cycle is the cached attempt. -/
theorem ensureWiFiConnected_resolution_order_witness :
    (ensureWiFiConnected envW1 stW1).2.head? =
      some (Ev.attempt Src.cached "cachednet" (envW1.reachable "cachednet" "cpw")) :=
  (ensureWiFiConnected_resolution_order envW1 stW1 rfl).1 ⟨"cachednet", "cpw"⟩ (by decide)
